import Mathlib

/-!
Verification of the signal-derivation engine of the crypto-rotation-map
dashboard.

Conventions of the shallow embedding:
* JavaScript numbers that carry market data are modelled as exact rationals
  (`ℚ`); every threshold appearing in the source (3, 0.5, 1.5, ...) is exactly
  representable in binary floating point, so the branch structure of the
  classifiers is unchanged by this idealisation.
* A field that the source keeps as `number | null` (or that can be `NaN`) is
  modelled as `Option ℚ`; `none` stands for the null/NaN "unknown" sentinel,
  which every classifier tests up front (`x === null || Number.isNaN(x)`).
* The label strings returned by the classifiers are kept verbatim.
* `namespace Page1` embeds the first engine of `src/app/page.tsx` (continuous
  trend/momentum scores); `namespace Page2` embeds its second engine (EMA
  structure, sectors, rotation signals); `namespace Part0` and `namespace
  Part1` embed the helper functions of `src/unnamed/part_000` and
  `src/unnamed/part_001`.
-/

namespace Page1

/-- `getSentiment` of `src/app/page.tsx` (first engine, lines 74-81).
Thresholds 3 / 0.5 / -3 / -0.5 on the 24h change; `null`/`NaN` input (here
`none`) yields the string `"Neutral"`. `0.5` is written `1/2`. -/
def getSentiment (change24h : Option ℚ) : String :=
  match change24h with
  | none => "Neutral"
  | some c =>
    if c > 3 then "Strong Bullish"
    else if c > 1/2 then "Bullish"
    else if c < -3 then "Strong Bearish"
    else if c < -1/2 then "Bearish"
    else "Neutral"

/-- `getTrendLabel` of `src/app/page.tsx` (lines 83-90). -/
def getTrendLabel (change7d : Option ℚ) : String :=
  match change7d with
  | none => "Unknown"
  | some c =>
    if c > 15 then "Strong Uptrend"
    else if c > 5 then "Uptrend"
    else if c < -15 then "Strong Downtrend"
    else if c < -5 then "Downtrend"
    else "Sideways"

/-- `getTrendPhase` of `src/app/page.tsx` (lines 92-104). -/
def getTrendPhase (change7d : Option ℚ) : String :=
  match change7d with
  | none => "Unknown"
  | some c =>
    if c > 20 then "Parabolic Uptrend"
    else if c > 10 then "Expansion Phase"
    else if c > 3 then "Early Uptrend"
    else if c < -20 then "Capitulation"
    else if c < -10 then "Sharp Downtrend"
    else if c < -3 then "Grinding Downtrend"
    else "Range / Compression"

/-- `getAccelerationLabel` of `src/app/page.tsx` (lines 106-125). -/
def getAccelerationLabel (change24h change7d : Option ℚ) : String :=
  match change24h, change7d with
  | some c24, some c7 =>
    if c24 > c7 / 7 + 3 then "Short-term acceleration"
    else if c24 < c7 / 7 - 3 then "Short-term deceleration"
    else "Stable vs recent trend"
  | _, _ => "No clear acceleration"

/-- `getTrendScore` of `src/app/page.tsx` (lines 127-130): unknown → 0,
else `change7d / 4`. -/
def getTrendScore (change7d : Option ℚ) : ℚ :=
  match change7d with
  | none => 0
  | some c => c / 4

/-- `getMomentumScore` of `src/app/page.tsx` (lines 132-135): unknown → 0,
else `change24h / 3`. -/
def getMomentumScore (change24h : Option ℚ) : ℚ :=
  match change24h with
  | none => 0
  | some c => c / 3

/-- The record returned by `getTrafficLight` (label and chip colours). -/
structure TrafficLight where
  label : String
  color : String
  bg : String
  border : String
deriving DecidableEq

/-- The green record of `getTrafficLight` (`src/app/page.tsx` lines 138-145). -/
def greenLight : TrafficLight :=
  { label := "Green – Favorable rotation", color := "#22c55e",
    bg := "rgba(34,197,94,0.18)", border := "rgba(34,197,94,0.6)" }

/-- The red record of `getTrafficLight` (lines 146-153). -/
def redLight : TrafficLight :=
  { label := "Red – High risk / fading", color := "#ef4444",
    bg := "rgba(239,68,68,0.16)", border := "rgba(239,68,68,0.6)" }

/-- The yellow record of `getTrafficLight` (lines 154-159). -/
def yellowLight : TrafficLight :=
  { label := "Yellow – Neutral / wait", color := "#facc15",
    bg := "rgba(250,204,21,0.14)", border := "rgba(250,204,21,0.55)" }

/-- `getTrafficLight` of `src/app/page.tsx` (lines 137-160):
`score >= 6` → green, `score <= -2` → red, otherwise yellow. -/
def getTrafficLight (rotationScore : ℚ) : TrafficLight :=
  if rotationScore ≥ 6 then greenLight
  else if rotationScore ≤ -2 then redLight
  else yellowLight

/-- The per-card combination of `src/app/page.tsx` line 436:
`rotationScore = trendScore * 2 + momentumScore`. -/
def rotationScore (change24h change7d : Option ℚ) : ℚ :=
  getTrendScore change7d * 2 + getMomentumScore change24h

end Page1

namespace Part0

/-- `getSentiment` of `src/unnamed/part_000` (lines 80-87); character for
character the same classifier as `Page1.getSentiment`. -/
def getSentiment (change : Option ℚ) : String :=
  match change with
  | none => "Neutral"
  | some c =>
    if c > 3 then "Strong Bullish"
    else if c > 1/2 then "Bullish"
    else if c < -3 then "Strong Bearish"
    else if c < -1/2 then "Bearish"
    else "Neutral"

end Part0

/-- C1: for defined inputs the rotation score is
`trendScore(change7d) * 2 + momentumScore(change24h)` with
`trendScore = change7d / 4` and `momentumScore = change24h / 3`; the scenario
`change24h = 8, change7d = 18` yields trendScore `9/2`, momentumScore `8/3`,
rotationScore `35/3`, a green traffic light, trend label `Strong Uptrend`
and trend phase `Expansion Phase`. -/
theorem rotation_formula_and_scenario :
    (∀ c24 c7 : ℚ, Page1.rotationScore (some c24) (some c7) =
      Page1.getTrendScore (some c7) * 2 + Page1.getMomentumScore (some c24)) ∧
    (∀ c7 : ℚ, Page1.getTrendScore (some c7) = c7 / 4) ∧
    (∀ c24 : ℚ, Page1.getMomentumScore (some c24) = c24 / 3) ∧
    Page1.getTrendScore (some 18) = 9/2 ∧
    Page1.getMomentumScore (some 8) = 8/3 ∧
    Page1.rotationScore (some 8) (some 18) = 35/3 ∧
    Page1.getTrafficLight (Page1.rotationScore (some 8) (some 18)) = Page1.greenLight ∧
    Page1.getTrendLabel (some 18) = "Strong Uptrend" ∧
    Page1.getTrendPhase (some 18) = "Expansion Phase" := by
  refine ⟨fun c24 c7 => rfl, fun c7 => rfl, fun c24 => rfl, by norm_num [Page1.getTrendScore],
    by norm_num [Page1.getMomentumScore], ?_, ?_, ?_, ?_⟩
  · norm_num [Page1.rotationScore, Page1.getTrendScore, Page1.getMomentumScore]
  · have h : Page1.rotationScore (some 8) (some 18) = 35/3 := by
      norm_num [Page1.rotationScore, Page1.getTrendScore, Page1.getMomentumScore]
    rw [h]
    norm_num [Page1.getTrafficLight]
  · norm_num [Page1.getTrendLabel]
  · norm_num [Page1.getTrendPhase]

/-- C3 counterexample: on an absent (`null`) 24h change the sentiment
classifier of the source returns the string `"Neutral"`, not the claimed
`"Unknown"`. -/
theorem sentiment_null_is_neutral_not_unknown :
    Page1.getSentiment none = "Neutral" ∧ Page1.getSentiment none ≠ "Unknown" := by
  exact ⟨rfl, by decide⟩

/-- C3 amended: `getSentiment` returns `"Neutral"` (not `"Unknown"`) on an
absent/NaN input; on numeric input it follows the strict threshold table
`>3 → Strong Bullish`, `>0.5 → Bullish`, `<-3 → Strong Bearish`,
`<-0.5 → Bearish`, else `Neutral`, so the boundary `change24h = 3` maps to
`Bullish`; the copy in `src/unnamed/part_000` agrees everywhere. -/
theorem sentiment_spec_amended :
    Page1.getSentiment none = "Neutral" ∧
    (∀ c : ℚ,
      (Page1.getSentiment (some c) = "Strong Bullish" ↔ 3 < c) ∧
      (Page1.getSentiment (some c) = "Bullish" ↔ 1/2 < c ∧ c ≤ 3) ∧
      (Page1.getSentiment (some c) = "Strong Bearish" ↔ c < -3) ∧
      (Page1.getSentiment (some c) = "Bearish" ↔ -3 ≤ c ∧ c < -1/2) ∧
      (Page1.getSentiment (some c) = "Neutral" ↔ -1/2 ≤ c ∧ c ≤ 1/2)) ∧
    Page1.getSentiment (some 3) = "Bullish" ∧
    (∀ x, Part0.getSentiment x = Page1.getSentiment x) := by
  refine ⟨rfl, fun c => ?_, by norm_num [Page1.getSentiment], fun x => ?_⟩
  · simp only [Page1.getSentiment]
    split_ifs with h1 h2 h3 h4 <;>
      refine ⟨?_, ?_, ?_, ?_, ?_⟩ <;>
      constructor <;>
      intro h <;>
      first
        | assumption
        | rfl
        | (exact absurd h (by decide))
        | linarith
        | (constructor <;> linarith)
  · cases x with
    | none => rfl
    | some c => rfl

/-- C5: the traffic-light classification partitions the line exactly:
`6 ≤ s` gives the green record, `s ≤ -2` the red record, and
`-2 < s < 6` the yellow record, each score receiving exactly one label. -/
theorem trafficLight_exact_partition :
    ∀ s : ℚ,
      (Page1.getTrafficLight s = Page1.greenLight ↔ 6 ≤ s) ∧
      (Page1.getTrafficLight s = Page1.redLight ↔ s ≤ -2) ∧
      (Page1.getTrafficLight s = Page1.yellowLight ↔ -2 < s ∧ s < 6) ∧
      (Page1.getTrafficLight s = Page1.greenLight ∨
        Page1.getTrafficLight s = Page1.redLight ∨
        Page1.getTrafficLight s = Page1.yellowLight) := by
  intro s
  unfold Page1.getTrafficLight
  split_ifs with h1 h2 <;>
    refine ⟨?_, ?_, ?_, ?_⟩ <;>
    first
      | (exact Or.inl rfl)
      | (exact Or.inr (Or.inl rfl))
      | (exact Or.inr (Or.inr rfl))
      | (constructor <;> intro h <;>
          first
            | assumption
            | rfl
            | (exact absurd h (by decide))
            | linarith
            | (constructor <;> linarith))

section StableSort

/-!
A stable descending sort, used to embed the JavaScript calls
`.sort((a, b) => b.score - a.score)` and `.sort((a, b) => b.avg - a.avg)` of
`src/app/page.tsx` (second engine). ECMAScript's `Array.prototype.sort` is
specified to be stable, and a stable sort consistent with a total preorder is
unique, so any stable implementation embeds it faithfully; we use insertion
sort, inserting each element after all previously placed elements whose key is
greater than or equal to its own.
-/

variable {α : Type*} (key : α → ℚ)

/-- Insert `x` into a (descending) list, after every element whose key is
`≥ key x` and before the first element whose key is `< key x`. -/
def insertDesc (x : α) : List α → List α
  | [] => [x]
  | y :: ys => if key y < key x then x :: y :: ys else y :: insertDesc x ys

/-- Stable descending insertion sort: fold the input left to right, inserting
each element into the accumulated sorted list. -/
def stableSortDesc (l : List α) : List α :=
  l.foldl (fun acc x => insertDesc key x acc) []

theorem insertDesc_perm (x : α) (l : List α) :
    List.Perm (insertDesc key x l) (x :: l) := by
  induction l with
  | nil => exact List.Perm.refl _
  | cons y ys ih =>
    by_cases h : key y < key x
    · simp [insertDesc, h]
    · simp only [insertDesc, if_neg h]
      exact (ih.cons y).trans (List.Perm.swap x y ys)

theorem insertDesc_pairwise {x : α} {l : List α}
    (h : l.Pairwise (fun a b => key b ≤ key a)) :
    (insertDesc key x l).Pairwise (fun a b => key b ≤ key a) := by
  induction l with
  | nil => simp [insertDesc]
  | cons y ys ih =>
    rcases List.pairwise_cons.mp h with ⟨hy, hys⟩
    by_cases hlt : key y < key x
    · simp only [insertDesc, if_pos hlt]
      refine List.pairwise_cons.mpr ⟨?_, h⟩
      intro z hz
      rcases List.mem_cons.mp hz with rfl | hz2
      · exact le_of_lt hlt
      · exact le_trans (hy z hz2) (le_of_lt hlt)
    · simp only [insertDesc, if_neg hlt]
      refine List.pairwise_cons.mpr ⟨?_, ih hys⟩
      intro z hz
      rcases List.mem_cons.mp ((insertDesc_perm key x ys).mem_iff.mp hz) with rfl | hz2
      · exact not_lt.mp hlt
      · exact hy z hz2

theorem insertDesc_filter_of_ne {x : α} {q : ℚ} (hx : key x ≠ q) (l : List α) :
    (insertDesc key x l).filter (fun a => decide (key a = q)) =
      l.filter (fun a => decide (key a = q)) := by
  induction l with
  | nil => simp [insertDesc, hx]
  | cons y ys ih =>
    by_cases hlt : key y < key x
    · simp [insertDesc, hlt, List.filter_cons, hx]
    · simp only [insertDesc, if_neg hlt, List.filter_cons, ih]

theorem insertDesc_filter_of_eq {x : α} {q : ℚ} (hx : key x = q) {l : List α}
    (hl : l.Pairwise (fun a b => key b ≤ key a)) :
    (insertDesc key x l).filter (fun a => decide (key a = q)) =
      l.filter (fun a => decide (key a = q)) ++ [x] := by
  induction l with
  | nil => simp [insertDesc, hx]
  | cons y ys ih =>
    rcases List.pairwise_cons.mp hl with ⟨hy, hys⟩
    by_cases hlt : key y < key x
    · have hnil : (y :: ys).filter (fun a => decide (key a = q)) = [] := by
        rw [List.filter_eq_nil_iff]
        intro z hz
        simp only [decide_eq_true_eq]
        rcases List.mem_cons.mp hz with rfl | hz2
        · exact ne_of_lt (hx ▸ hlt)
        · exact ne_of_lt (lt_of_le_of_lt (hy z hz2) (hx ▸ hlt))
      simp only [insertDesc, if_pos hlt]
      rw [List.filter_cons, hnil]
      simp [hx]
    · simp only [insertDesc, if_neg hlt, List.filter_cons, ih hys]
      by_cases hyq : decide (key y = q) = true <;> simp [hyq]

theorem foldl_insertDesc_pairwise (l acc : List α)
    (hacc : acc.Pairwise (fun a b => key b ≤ key a)) :
    (l.foldl (fun a x => insertDesc key x a) acc).Pairwise
      (fun a b => key b ≤ key a) := by
  induction l generalizing acc with
  | nil => exact hacc
  | cons x xs ih => exact ih _ (insertDesc_pairwise key hacc)

theorem foldl_insertDesc_perm (l acc : List α) :
    List.Perm (l.foldl (fun a x => insertDesc key x a) acc) (acc ++ l) := by
  induction l generalizing acc with
  | nil => simp
  | cons x xs ih =>
    refine (ih (insertDesc key x acc)).trans ?_
    refine (((insertDesc_perm key x acc).append_right xs).trans ?_)
    exact List.perm_middle.symm

theorem foldl_insertDesc_filter (q : ℚ) (l acc : List α)
    (hacc : acc.Pairwise (fun a b => key b ≤ key a)) :
    (l.foldl (fun a x => insertDesc key x a) acc).filter (fun a => decide (key a = q)) =
      acc.filter (fun a => decide (key a = q)) ++ l.filter (fun a => decide (key a = q)) := by
  induction l generalizing acc with
  | nil => simp
  | cons x xs ih =>
    rw [List.foldl_cons, ih _ (insertDesc_pairwise key hacc)]
    by_cases hx : key x = q
    · rw [insertDesc_filter_of_eq key hx hacc, List.filter_cons]
      simp [hx]
    · rw [insertDesc_filter_of_ne key hx, List.filter_cons]
      simp [hx]

theorem stableSortDesc_pairwise (l : List α) :
    (stableSortDesc key l).Pairwise (fun a b => key b ≤ key a) :=
  foldl_insertDesc_pairwise key l [] List.Pairwise.nil

theorem stableSortDesc_perm (l : List α) : List.Perm (stableSortDesc key l) l :=
  (foldl_insertDesc_perm key l []).trans (by simp)

theorem stableSortDesc_filter (q : ℚ) (l : List α) :
    (stableSortDesc key l).filter (fun a => decide (key a = q)) =
      l.filter (fun a => decide (key a = q)) := by
  simpa using foldl_insertDesc_filter key q l [] List.Pairwise.nil

end StableSort

namespace Page2

/-- Coin sectors of the second engine of `src/app/page.tsx` (line 644):
`mac`, `l1` and `oracle` model the source strings "Macro", "L1", "Oracle". -/
inductive Sector where
  | mac
  | l1
  | oracle
deriving DecidableEq

/-- `Coin` of `src/app/page.tsx` (lines 646-651). -/
structure Coin where
  id : String
  symbol : String
  name : String
  sector : Sector
deriving DecidableEq

/-- `MarketData` of `src/app/page.tsx` (lines 653-656); `none` models
`null`/`NaN`. -/
structure MarketData where
  price : Option ℚ
  change24h : Option ℚ

/-- `TrendInfo` of `src/app/page.tsx` (lines 658-663); the `ema20`/`ema50`
fields are `number` in the source but can be `NaN` (see `calculateEMA`), so
they are modelled as `Option ℚ` with `none` for `NaN`. -/
structure TrendInfo where
  ema20 : Option ℚ
  ema50 : Option ℚ
  change7d : Option ℚ
  spark : List ℚ

/-- `RotationItem` of `src/app/page.tsx` (lines 665-668). -/
structure RotationItem where
  coin : Coin
  score : ℚ
deriving DecidableEq

/-- A per-sector average entry of the signal emitter
(`src/app/page.tsx` lines 1001-1007). -/
structure SectorStat where
  sector : Sector
  avg : ℚ
deriving DecidableEq

/-- The fixed coin universe `COINS` of `src/app/page.tsx` (lines 678-684). -/
def COINS : List Coin :=
  [⟨"bitcoin", "BTC", "Bitcoin", .mac⟩,
   ⟨"ethereum", "ETH", "Ethereum", .l1⟩,
   ⟨"solana", "SOL", "Solana", .l1⟩,
   ⟨"chainlink", "LINK", "Chainlink", .oracle⟩,
   ⟨"avalanche-2", "AVAX", "Avalanche", .l1⟩]

/-- One step of the EMA loop of `calculateEMA`:
`ema = prices[i] * k + ema * (1 - k)`. -/
def emaStep (k ema sample : ℚ) : ℚ := sample * k + ema * (1 - k)

/-- `calculateEMA` of `src/app/page.tsx` (lines 686-697): `NaN` (here `none`)
when `prices.length < period`; otherwise seed with `prices[0]` and fold
`emaStep` with `k = 2 / (period + 1)` over the remaining samples.  For an
empty `prices` and `period = 0` the source reads `prices[0]` (which is
`undefined`) and returns it; that non-number result is also modelled
as `none`. -/
def calculateEMA (prices : List ℚ) (period : ℕ) : Option ℚ :=
  if prices.length < period then none
  else
    match prices with
    | [] => none
    | p :: rest => some (rest.foldl (emaStep (2 / ((period : ℚ) + 1))) p)

/-- `getTrendScore` of `src/app/page.tsx` (lines 751-771), the EMA-structure
trend score.  The guard `!price || !trend || isNaN(ema20) || isNaN(ema50)`
returns `0`; note that `!price` is also true for the number `0`, so a price
of exactly `0` takes the unknown branch. -/
def getTrendScore (price : Option ℚ) (trend : Option TrendInfo) : ℚ :=
  match price, trend with
  | some p, some t =>
    if p = 0 then 0
    else
      match t.ema20, t.ema50 with
      | some e20, some e50 =>
        if e20 < p ∧ e50 < e20 then 2
        else if e50 < e20 then 1
        else if p < e20 ∧ e20 < e50 then -2
        else -1
      | _, _ => 0
  | _, _ => 0

/-- `getMomentumScore` of `src/app/page.tsx` (lines 774-784), the bucketed
24h momentum score. -/
def getMomentumScore (change : Option ℚ) : ℚ :=
  match change with
  | none => 0
  | some c =>
    if 7 < c then 3
    else if 3 < c then 2
    else if 0 < c then 1
    else if c < -7 then -3
    else if c < -3 then -2
    else if c < 0 then -1
    else 0

/-- A per-coin market lookup, modelling `marketData[coin.id]` where an entry
can be absent. -/
abbrev MarketMap := String → Option MarketData

/-- A per-coin trend lookup, modelling `trendData[coin.id]`. -/
abbrev TrendMap := String → Option TrendInfo

/-- The per-coin item construction shared by `rotationList`
(`src/app/page.tsx` lines 957-970) and `signalMessages` (lines 977-988):
`price = md?.price ?? null`, `change = md?.change24h ?? null`,
`score = momentumScore + 2 * trendScore`. -/
def mkItem (market : MarketMap) (trendMap : Option TrendMap) (coin : Coin) :
    RotationItem :=
  let md := market coin.id
  let trend : Option TrendInfo :=
    match trendMap with
    | none => none
    | some tm => tm coin.id
  ⟨coin, getMomentumScore (md.bind MarketData.change24h) +
    2 * getTrendScore (md.bind MarketData.price) trend⟩

/-- `rotationList` of `src/app/page.tsx` (lines 955-971): map the visible
coins to items, then `.sort((a, b) => b.score - a.score)` (a stable
descending sort). -/
def rotationList (coins : List Coin) (market : MarketMap)
    (trendMap : Option TrendMap) : List RotationItem :=
  stableSortDesc RotationItem.score (coins.map (mkItem market trendMap))

/-- The arithmetic mean `arr.reduce((a, b) => a + b, 0) / arr.length`
(`src/app/page.tsx` line 1005). -/
def average (l : List ℚ) : ℚ := l.sum / l.length

/-- The per-sector score arrays built by `sectorMap` (`src/app/page.tsx`
lines 992-999): the scores of the items of sector `s`, in item order. -/
def sectorScores (items : List RotationItem) (s : Sector) : List ℚ :=
  (items.filter (fun it => decide (it.coin.sector = s))).map RotationItem.score

/-- The insertion order of `Object.entries(sectorMap)`
(`src/app/page.tsx` lines 992-996): Macro, L1, Oracle. -/
def allSectors : List Sector := [.mac, .l1, .oracle]

/-- Default `SectorStat`, used only for out-of-range `headD`/`getLastD`
accesses that the length guards make unreachable. -/
def dfltStat : SectorStat := ⟨.l1, 0⟩

/-- `sectorStats` of `src/app/page.tsx` (lines 1001-1007): keep the sectors
with at least one member, take each sector's average score, and sort
descending by average (`.sort((a, b) => b.avg - a.avg)`, stable). -/
def sectorStats (items : List RotationItem) : List SectorStat :=
  stableSortDesc SectorStat.avg
    ((allSectors.filter (fun s => !(sectorScores items s).isEmpty)).map
      (fun s => ⟨s, average (sectorScores items s)⟩))

/-- `items.reduce((best, cur) => cur.score > best.score ? cur : best)`
(`src/app/page.tsx` lines 1032-1034): the first item of maximal score. -/
def reduceMax (x : RotationItem) (xs : List RotationItem) : RotationItem :=
  xs.foldl (fun best cur => if best.score < cur.score then cur else best) x

/-- `items.reduce((worst, cur) => cur.score < worst.score ? cur : worst)`
(`src/app/page.tsx` lines 1035-1037): the first item of minimal score. -/
def reduceMin (x : RotationItem) (xs : List RotationItem) : RotationItem :=
  xs.foldl (fun worst cur => if cur.score < worst.score then cur else worst) x

/-- The maximum rotation score of a nonempty item list (head `x`, tail `xs`). -/
def maxScore (x : RotationItem) (xs : List RotationItem) : ℚ :=
  xs.foldl (fun m it => max m it.score) x.score

/-- The minimum rotation score of a nonempty item list (head `x`, tail `xs`). -/
def minScore (x : RotationItem) (xs : List RotationItem) : ℚ :=
  xs.foldl (fun m it => min m it.score) x.score

/-- The four signal messages of `src/app/page.tsx` (lines 1014-1053),
abstracted from their rendered strings to constructor plus payload (the
payload carries exactly the data interpolated into the string). -/
inductive Signal where
  | sectorLeading (leader second : Sector) (leaderAvg secondAvg : ℚ)
  | sectorAbandoned (laggard : Sector) (avg : ℚ)
  | coinAcceleration (symbol : String) (score : ℚ)
  | coinCapitulation (symbol : String) (score : ℚ)
deriving DecidableEq

/-- Is this the sector-leading message? -/
def Signal.isLeading : Signal → Bool
  | .sectorLeading _ _ _ _ => true
  | _ => false

/-- Is this the sector-abandoned message? -/
def Signal.isAbandoned : Signal → Bool
  | .sectorAbandoned _ _ => true
  | _ => false

/-- Is this the strongest-coin acceleration message? -/
def Signal.isAccel : Signal → Bool
  | .coinAcceleration _ _ => true
  | _ => false

/-- Is this the weakest-coin capitulation message? -/
def Signal.isCap : Signal → Bool
  | .coinCapitulation _ _ => true
  | _ => false

/-- `signalMessages` of `src/app/page.tsx` (lines 975-1054), as a function of
the item list: empty items emit nothing (the `items.length > 0` guard);
otherwise rank the populated sectors, emit the leading message when
`leader.avg >= 3 && leader.avg - second.avg >= 1.5`, the abandoned message
when the lowest-ranked sector has `avg <= -2` (both only when at least two
sectors are populated), then the acceleration message when the strongest
item's score is `>= 6` and the capitulation message when the weakest item's
score is `<= -6`, in push order. -/
def signalMessages (items : List RotationItem) : List Signal :=
  match items with
  | [] => []
  | c :: rest =>
    let stats := sectorStats (c :: rest)
    let sectorMsgs : List Signal :=
      match stats with
      | a :: b :: more =>
        (if 3 ≤ a.avg ∧ 3/2 ≤ a.avg - b.avg
         then [Signal.sectorLeading a.sector b.sector a.avg b.avg] else []) ++
        (let laggard := more.getLastD b
         if laggard.avg ≤ -2
         then [Signal.sectorAbandoned laggard.sector laggard.avg] else [])
      | _ => []
    let strongest := reduceMax c rest
    let weakest := reduceMin c rest
    sectorMsgs ++
      (if 6 ≤ strongest.score
       then [Signal.coinAcceleration strongest.coin.symbol strongest.score] else []) ++
      (if weakest.score ≤ -6
       then [Signal.coinCapitulation weakest.coin.symbol weakest.score] else [])

/-- The top-ranked entry of the ranked sector list (C6's "top-ranked
sector"). -/
def topStat (stats : List SectorStat) : SectorStat := stats.headD dfltStat

/-- The second-ranked entry of the ranked sector list. -/
def secondStat (stats : List SectorStat) : SectorStat := stats.tail.headD dfltStat

/-- The lowest-ranked entry of the ranked sector list. -/
def lastStat (stats : List SectorStat) : SectorStat := stats.getLastD dfltStat

/-- C6's emission condition for the sector-leading message: at least two
populated sectors, top average `>= 3`, lead over the runner-up `>= 1.5`. -/
def leadingCond (stats : List SectorStat) : Prop :=
  2 ≤ stats.length ∧ 3 ≤ (topStat stats).avg ∧
    3/2 ≤ (topStat stats).avg - (secondStat stats).avg

/-- C6's emission condition for the sector-abandoned message: at least two
populated sectors and lowest-ranked average `<= -2`. -/
def abandonedCond (stats : List SectorStat) : Prop :=
  2 ≤ stats.length ∧ (lastStat stats).avg ≤ -2

instance (stats : List SectorStat) : Decidable (leadingCond stats) := by
  unfold leadingCond; infer_instance

instance (stats : List SectorStat) : Decidable (abandonedCond stats) := by
  unfold abandonedCond; infer_instance

/-- The sector filter of the page (`sectorFilter`, line 821): `none` models
`"All"`. -/
def visibleCoinsFor (filter : Option Sector) : List Coin :=
  COINS.filter (fun c =>
    match filter with
    | none => true
    | some s => decide (c.sector = s))

/-- The two engine outputs the page renders (rotation strip and signal box). -/
structure PageView where
  rotation : List RotationItem
  signals : List Signal

/-- The engine portion of the render of `src/app/page.tsx` (lines 949-1055):
`rotationList` is computed over the sector-filtered `visibleCoins` (and only
when `marketData` is non-null), while `signalMessages` is computed over the
full `COINS` universe (when both `marketData` and `trendData` are
non-null). -/
def renderPage (filter : Option Sector) (market : Option MarketMap)
    (trendMap : Option TrendMap) : PageView :=
  { rotation :=
      match market with
      | none => []
      | some m => rotationList (visibleCoinsFor filter) m trendMap,
    signals :=
      match market, trendMap with
      | some m, some tm => signalMessages (COINS.map (mkItem m (some tm)))
      | _, _ => [] }

end Page2

namespace Part1

/-- The fake trend record of `src/unnamed/part_001` (lines 43-50); its
`change7d` is a numeric string in the source, modelled by its numeric
value (`none` for an absent field). -/
structure TrendEntry where
  change7d : Option ℚ

/-- `getTrendLabel` of `src/unnamed/part_001` (lines 71-79).  The source
reads `const c7 = trend?.change7d ?? 0`: a missing trend record or a missing
`change7d` field is replaced by the number `0` before classification. -/
def getTrendLabel (price : Option ℚ) (trend : Option TrendEntry) : String :=
  match price with
  | none => "Unknown"
  | some _ =>
    let c7 : ℚ :=
      match trend with
      | none => 0
      | some t => t.change7d.getD 0
    if c7 > 5 then "Strong Uptrend"
    else if c7 > 0 then "Uptrend"
    else if c7 < -5 then "Strong Downtrend"
    else if c7 < 0 then "Downtrend"
    else "Flat"

/-- `getTrendScore` of `src/unnamed/part_001` (lines 81-85):
`parseFloat(trend?.change7d ?? 0) / 2`, so a missing `change7d` again
contributes `0`. -/
def getTrendScore (price : Option ℚ) (trend : Option TrendEntry) : ℚ :=
  match price with
  | none => 0
  | some _ =>
    (match trend with
     | none => 0
     | some t => t.change7d.getD 0) / 2

end Part1

/-- C10: with both EMAs defined, the EMA-structure trend score is `0` for a
`null`/`NaN` price (`none`) and also for a price of exactly `0` (the falsy
`!price` guard), so the strong-bearish stack value `-2` is never produced at
price `0`. -/
theorem ema_trend_score_zero_price :
    ∀ (e20 e50 : ℚ) (c7 : Option ℚ) (sp : List ℚ),
      Page2.getTrendScore none (some ⟨some e20, some e50, c7, sp⟩) = 0 ∧
      Page2.getTrendScore (some 0) (some ⟨some e20, some e50, c7, sp⟩) = 0 ∧
      Page2.getTrendScore (some 0) (some ⟨some e20, some e50, c7, sp⟩) ≠ -2 := by
  intro e20 e50 c7 sp
  refine ⟨rfl, by simp [Page2.getTrendScore], by simp [Page2.getTrendScore]⟩

/-- C4 counterexample: for the empty series and `period = 0` the source
returns `prices[0]`, i.e. `undefined` (modelled `none`), although
`series.length < period` is false — so "unknown iff `length < period`"
fails as stated. -/
theorem ema_unknown_on_empty_series_period_zero :
    Page2.calculateEMA [] 0 = none ∧ ¬ (List.length ([] : List ℚ) < 0) :=
  ⟨rfl, by decide⟩

/-- For `k = 1` each EMA step returns the new sample, so the fold returns the
last element. -/
theorem emaStep_one_foldl (rest : List ℚ) (p : ℚ) :
    rest.foldl (Page2.emaStep 1) p = rest.getLastD p := by
  induction rest generalizing p with
  | nil => rfl
  | cons s ss ih =>
    rw [List.foldl_cons]
    have h1 : Page2.emaStep 1 p s = s := by
      simp [Page2.emaStep]
    rw [h1, ih, List.getLastD_cons]

/-- C4 amended: `ema(series, period)` is unknown iff `series.length < period`
or the series is empty (the extra empty-series case is reachable only at
`period = 0`, where the source returns `undefined`); whenever
`period ≤ series.length` the result is the fold seeded with the first sample
applying `ema = sample * k + ema * (1 - k)`, `k = 2 / (period + 1)`; and for
`period = 1` the result is the last element of the series. -/
theorem ema_spec_amended :
    (∀ (prices : List ℚ) (period : ℕ),
      Page2.calculateEMA prices period = none ↔
        (prices.length < period ∨ prices = [])) ∧
    (∀ (p : ℚ) (rest : List ℚ) (period : ℕ), period ≤ rest.length + 1 →
      Page2.calculateEMA (p :: rest) period =
        some (rest.foldl (Page2.emaStep (2 / ((period : ℚ) + 1))) p)) ∧
    (∀ (p : ℚ) (rest : List ℚ),
      Page2.calculateEMA (p :: rest) 1 = some (rest.getLastD p)) := by
  refine ⟨fun prices period => ?_, fun p rest period hle => ?_, fun p rest => ?_⟩
  · cases prices with
    | nil =>
      simp [Page2.calculateEMA]
    | cons p rest =>
      simp only [Page2.calculateEMA]
      constructor
      · intro h
        split at h
        · exact Or.inl (by assumption)
        · exact absurd h (by simp)
      · intro h
        rcases h with h | h
        · rw [if_pos h]
        · exact absurd h (by simp)
  · have hnot : ¬ ((p :: rest).length < period) := by
      simp only [List.length_cons]
      omega
    simp only [Page2.calculateEMA, if_neg hnot]
  · have h1 : Page2.calculateEMA (p :: rest) 1 =
        some (rest.foldl (Page2.emaStep (2 / ((1 : ℕ) + 1 : ℚ))) p) := by
      have hnot : ¬ ((p :: rest).length < 1) := by
        simp
      simp only [Page2.calculateEMA, if_neg hnot]
    rw [h1]
    have hk : (2 / ((1 : ℕ) + 1 : ℚ)) = 1 := by norm_num
    rw [hk, emaStep_one_foldl]

/-- C4 witness: the amended-claim fold clause applied at the series `[1, 2]`
with `period = 2`, whose hypothesis `2 ≤ 2` holds. -/
theorem ema_spec_amended_witness :
    (2 : ℕ) ≤ [(2 : ℚ)].length + 1 ∧
    Page2.calculateEMA [(1 : ℚ), 2] 2 =
      some ([(2 : ℚ)].foldl (Page2.emaStep (2 / ((2 : ℕ) + 1 : ℚ))) 1) :=
  ⟨by decide, ema_spec_amended.2.1 1 [2] 2 (by decide)⟩

/-- C2 (code bug): the `src/unnamed/part_001` trend helpers coerce a missing
`change7d` to `0` (`trend?.change7d ?? 0`): with a non-null price and an
absent 7d change, `getTrendLabel` returns the numeric label `"Flat"` instead
of the unknown sentinel, indistinguishable from a true `change7d = 0`, and
`getTrendScore` likewise scores the missing value exactly like `0` — the
classifier receives `0` in place of a missing `change7d`, which the claimed
invariant forbids. -/
theorem missing_change7d_coerced_to_zero :
    Part1.getTrendLabel (some 100) (some ⟨none⟩) = "Flat" ∧
    Part1.getTrendLabel (some 100) (some ⟨none⟩) ≠ "Unknown" ∧
    Part1.getTrendLabel (some 100) (some ⟨none⟩) =
      Part1.getTrendLabel (some 100) (some ⟨some 0⟩) ∧
    Part1.getTrendLabel (some 100) none = "Flat" ∧
    Part1.getTrendScore (some 100) (some ⟨none⟩) =
      Part1.getTrendScore (some 100) (some ⟨some 0⟩) := by
  refine ⟨?_, ?_, rfl, ?_, rfl⟩
  · decide
  · decide
  · decide

/-- C8: the rotation leaderboard is the item list sorted descending by score
(`Pairwise` of `≥` plus a permutation of the input items), and the sort is
stable: for every score value the items carrying that score appear in the
same order as in the input coin list. -/
theorem rotation_leaderboard_sorted_stable :
    ∀ (coins : List Page2.Coin) (market : Page2.MarketMap)
      (trendMap : Option Page2.TrendMap),
      (Page2.rotationList coins market trendMap).Pairwise
        (fun a b => b.score ≤ a.score) ∧
      List.Perm (Page2.rotationList coins market trendMap)
        (coins.map (Page2.mkItem market trendMap)) ∧
      ∀ q : ℚ,
        (Page2.rotationList coins market trendMap).filter
            (fun it => decide (it.score = q)) =
          (coins.map (Page2.mkItem market trendMap)).filter
            (fun it => decide (it.score = q)) := by
  intro coins market trendMap
  exact ⟨stableSortDesc_pairwise _ _, stableSortDesc_perm _ _,
    fun q => stableSortDesc_filter _ q _⟩

/-- C9: the emitted signal messages do not depend on the selected sector
filter — the render computes `signalMessages` over the full `COINS`
universe, the filter only restricts the rotation strip. -/
theorem signals_independent_of_filter :
    ∀ (f1 f2 : Option Page2.Sector) (market : Option Page2.MarketMap)
      (trendMap : Option Page2.TrendMap),
      (Page2.renderPage f1 market trendMap).signals =
        (Page2.renderPage f2 market trendMap).signals := by
  intro f1 f2 market trendMap
  rfl

/-- `reduceMax` returns an item carrying the maximum score of the list. -/
theorem reduceMax_score (c : Page2.RotationItem) (rest : List Page2.RotationItem) :
    (Page2.reduceMax c rest).score = Page2.maxScore c rest := by
  induction rest generalizing c with
  | nil => rfl
  | cons x xs ih =>
    show (Page2.reduceMax (if c.score < x.score then x else c) xs).score =
      Page2.maxScore c (x :: xs)
    rw [ih]
    unfold Page2.maxScore
    rw [List.foldl_cons]
    congr 1
    by_cases h : c.score < x.score
    · rw [if_pos h, max_eq_right (le_of_lt h)]
    · rw [if_neg h, max_eq_left (not_lt.mp h)]

/-- `reduceMin` returns an item carrying the minimum score of the list. -/
theorem reduceMin_score (c : Page2.RotationItem) (rest : List Page2.RotationItem) :
    (Page2.reduceMin c rest).score = Page2.minScore c rest := by
  induction rest generalizing c with
  | nil => rfl
  | cons x xs ih =>
    show (Page2.reduceMin (if x.score < c.score then x else c) xs).score =
      Page2.minScore c (x :: xs)
    rw [ih]
    unfold Page2.minScore
    rw [List.foldl_cons]
    congr 1
    by_cases h : x.score < c.score
    · rw [if_pos h, min_eq_right (le_of_lt h)]
    · rw [if_neg h, min_eq_left (not_lt.mp h)]

/-- The default of `getLast?.getD` on a nonempty list is irrelevant: the last
element of `b :: more` is the last of `more`, defaulting to `b`. -/
theorem getLast_getD_cons {α : Type*} (b d : α) (more : List α) :
    (b :: more).getLast?.getD d = more.getLast?.getD b := by
  induction more generalizing b d with
  | nil => rfl
  | cons x xs ih => rw [List.getLast?_cons_cons, ih x d, ih x b]

/-- Canonical form of the signal emitter on a nonempty item list: the output
is the concatenation, in order, of the conditional sector-leading,
sector-abandoned, strongest-coin and weakest-coin singleton messages, each
guarded by exactly its emission condition. -/
theorem signalMessages_canonical (c : Page2.RotationItem)
    (rest : List Page2.RotationItem) :
    Page2.signalMessages (c :: rest) =
      (if Page2.leadingCond (Page2.sectorStats (c :: rest))
       then [Page2.Signal.sectorLeading
              (Page2.topStat (Page2.sectorStats (c :: rest))).sector
              (Page2.secondStat (Page2.sectorStats (c :: rest))).sector
              (Page2.topStat (Page2.sectorStats (c :: rest))).avg
              (Page2.secondStat (Page2.sectorStats (c :: rest))).avg]
       else []) ++
      (if Page2.abandonedCond (Page2.sectorStats (c :: rest))
       then [Page2.Signal.sectorAbandoned
              (Page2.lastStat (Page2.sectorStats (c :: rest))).sector
              (Page2.lastStat (Page2.sectorStats (c :: rest))).avg]
       else []) ++
      (if 6 ≤ Page2.maxScore c rest
       then [Page2.Signal.coinAcceleration (Page2.reduceMax c rest).coin.symbol
              (Page2.reduceMax c rest).score]
       else []) ++
      (if Page2.minScore c rest ≤ -6
       then [Page2.Signal.coinCapitulation (Page2.reduceMin c rest).coin.symbol
              (Page2.reduceMin c rest).score]
       else []) := by
  have hmax := reduceMax_score c rest
  have hmin := reduceMin_score c rest
  simp only [Page2.signalMessages]
  cases hstats : Page2.sectorStats (c :: rest) with
  | nil =>
    simp [hstats, hmax, hmin, Page2.leadingCond, Page2.abandonedCond]
  | cons a t =>
    cases t with
    | nil =>
      simp [hstats, hmax, hmin, Page2.leadingCond, Page2.abandonedCond]
    | cons b more =>
      simp [hstats, hmax, hmin, Page2.leadingCond, Page2.abandonedCond,
        Page2.topStat, Page2.secondStat, Page2.lastStat, getLast_getD_cons]

/-- C6: for every nonempty item list the emitter emits the sector-leading
message iff at least two sectors are populated, the top-ranked sector's
average is `>= 3` and its lead over the runner-up is `>= 1.5`; the
sector-abandoned message iff at least two sectors are populated and the
lowest-ranked sector's average is `<= -2`; the acceleration message iff the
maximum single-coin score is `>= 6`; the capitulation message iff the
minimum single-coin score is `<= -6`; and the output is ordered leading,
abandoned, strongest-coin, weakest-coin. -/
theorem signal_emitter_conditions_and_order (c : Page2.RotationItem)
    (rest : List Page2.RotationItem) :
    ((∃ m ∈ Page2.signalMessages (c :: rest), m.isLeading = true) ↔
      Page2.leadingCond (Page2.sectorStats (c :: rest))) ∧
    ((∃ m ∈ Page2.signalMessages (c :: rest), m.isAbandoned = true) ↔
      Page2.abandonedCond (Page2.sectorStats (c :: rest))) ∧
    ((∃ m ∈ Page2.signalMessages (c :: rest), m.isAccel = true) ↔
      6 ≤ Page2.maxScore c rest) ∧
    ((∃ m ∈ Page2.signalMessages (c :: rest), m.isCap = true) ↔
      Page2.minScore c rest ≤ -6) ∧
    Page2.signalMessages (c :: rest) =
      (Page2.signalMessages (c :: rest)).filter Page2.Signal.isLeading ++
        (Page2.signalMessages (c :: rest)).filter Page2.Signal.isAbandoned ++
        (Page2.signalMessages (c :: rest)).filter Page2.Signal.isAccel ++
        (Page2.signalMessages (c :: rest)).filter Page2.Signal.isCap := by
  rw [signalMessages_canonical]
  by_cases h1 : Page2.leadingCond (Page2.sectorStats (c :: rest)) <;>
    by_cases h2 : Page2.abandonedCond (Page2.sectorStats (c :: rest)) <;>
    by_cases h3 : 6 ≤ Page2.maxScore c rest <;>
    by_cases h4 : Page2.minScore c rest ≤ -6 <;>
    simp [h1, h2, h3, h4, Page2.Signal.isLeading, Page2.Signal.isAbandoned,
      Page2.Signal.isAccel, Page2.Signal.isCap]

/-- C7: the signal emitter is total — the empty item set yields the empty
message sequence, and with fewer than two populated sectors it never emits a
leading or abandoned message, only possibly the strongest-coin and
weakest-coin messages. -/
theorem signal_emitter_total_single_sector :
    Page2.signalMessages [] = [] ∧
    ∀ items : List Page2.RotationItem, (Page2.sectorStats items).length < 2 →
      ∀ m ∈ Page2.signalMessages items, m.isAccel = true ∨ m.isCap = true := by
  refine ⟨rfl, ?_⟩
  intro items hlen m hm
  cases items with
  | nil => simp [Page2.signalMessages] at hm
  | cons c rest =>
    rw [signalMessages_canonical] at hm
    have hlead : ¬ Page2.leadingCond (Page2.sectorStats (c :: rest)) :=
      fun h => absurd h.1 (by omega)
    have hab : ¬ Page2.abandonedCond (Page2.sectorStats (c :: rest)) :=
      fun h => absurd h.1 (by omega)
    rw [if_neg hlead, if_neg hab] at hm
    simp only [List.nil_append, List.mem_append] at hm
    rcases hm with hm | hm
    · left
      by_cases h3 : 6 ≤ Page2.maxScore c rest
      · rw [if_pos h3] at hm
        rw [List.mem_singleton.mp hm]
        rfl
      · rw [if_neg h3] at hm
        exact absurd hm (List.not_mem_nil m)
    · right
      by_cases h4 : Page2.minScore c rest ≤ -6
      · rw [if_pos h4] at hm
        rw [List.mem_singleton.mp hm]
        rfl
      · rw [if_neg h4] at hm
        exact absurd hm (List.not_mem_nil m)

/-- C7 witness: a one-coin universe populates a single sector, its ranked
sector list has length `1 < 2`, and every emitted message (here the
acceleration message for the score-10 coin) is a strongest/weakest-coin
message. -/
theorem signal_emitter_total_single_sector_witness :
    (Page2.sectorStats
        [⟨⟨"chainlink", "LINK", "Chainlink", Page2.Sector.oracle⟩, (10 : ℚ)⟩]).length < 2 ∧
    ∀ m ∈ Page2.signalMessages
        [⟨⟨"chainlink", "LINK", "Chainlink", Page2.Sector.oracle⟩, (10 : ℚ)⟩],
      m.isAccel = true ∨ m.isCap = true :=
  ⟨by decide,
    signal_emitter_total_single_sector.2
      [⟨⟨"chainlink", "LINK", "Chainlink", Page2.Sector.oracle⟩, (10 : ℚ)⟩]
      (by decide)⟩
